import Mathlib

/-!
# MIMS billing & analytics: shallow embedding and verification

This file embeds the billing-transaction engine (`storeService.js`:
`addToStock`, `removeFromStock`, `createBilling`) and the analytics
subsystem (`analyticsService.js`: period resolver, sales aggregator,
bucketed breakdowns, TTL cache, top-sellers ranker) of the MIMS
repository, and proves or refutes the specification's claims about them.

Conventions of the embedding:
* JS numbers that hold money are modelled as `ℚ` (the floating-point
  representation is not modelled); quantities and timestamps are `ℤ`.
* JS `Date` values are modelled as epoch milliseconds (`ℤ`) with a
  proleptic-Gregorian civil calendar and no timezone offset (local
  time = UTC); `setDate`/`setMonth`/`setHours` and the `Date`
  constructor are modelled by their normalizing arithmetic semantics.
* Fallible operations return `Except BillingErr`/`Option`; the MongoDB
  transaction of `createBilling` (abort on throw) is modelled by
  returning the unchanged pre-call store next to the error.
-/

namespace MIMS

/-- Errors thrown by the store service (string tags in the source). -/
inductive BillingErr where
  | storeNotFound : BillingErr
  | invalidQuantity : BillingErr
  | medicineNotFound (medID : String) : BillingErr
  | insufficientStock (medID : String) : BillingErr
  deriving DecidableEq, Repr

/-- One element of `store.stock`: the fields of a stock entry that the
billing/stock code reads (`medData.medID`, `quantity`, `batchNumber`). -/
structure StockEntry where
  medID : String
  batchNumber : String
  quantity : ℤ
  deriving DecidableEq, Repr, Inhabited

/-- One element of a bill's `productList`: `medData.medID` and `quantity`. -/
structure Product where
  medID : String
  quantity : ℤ
  deriving DecidableEq, Repr

/-- A billing record as appended to `billingHistory` by `createBilling`
(only the fields analytics reads: `createdAt`, `totalAmount`,
`productList`). -/
structure BillingRecord where
  createdAt : ℤ
  totalAmount : ℚ
  productList : List Product
  deriving DecidableEq, Repr

/-- The store aggregate: the two collections mutated by `createBilling`. -/
structure Store where
  stock : List StockEntry
  billingHistory : List BillingRecord
  deriving DecidableEq, Repr

/-- JS `Array.prototype.findIndex`: index of the first element satisfying
the predicate (as `Option` rather than `-1`). -/
def arrFindIndex (p : StockEntry → Bool) : List StockEntry → Option ℕ
  | [] => none
  | e :: es => if p e then some 0 else (arrFindIndex p es).map (· + 1)

/-- `store.stock.findIndex(med => med.medData?.medID === medID)` — the
lookup used by `removeFromStock` (storeService.js line 300). -/
def removeFindIndex (medID : String) (stock : List StockEntry) : Option ℕ :=
  arrFindIndex (fun med => med.medID == medID) stock

/-- `store.stock.findIndex(med => med.medData?.medID === medIdToFind)` —
the lookup used by the deduction loop of `createBilling`
(storeService.js line 413). -/
def billingFindIndex (medID : String) (stock : List StockEntry) : Option ℕ :=
  arrFindIndex (fun med => med.medID == medID) stock

/-- The lookup used by `addToStock` (storeService.js lines 230–240):
match by `(medID, batchNumber)` when a batch number is provided,
otherwise by `medID` alone. An absent batch number is the empty string
(falsy), as in the schema default. -/
def addFindIndex (medID batchNumber : String) (stock : List StockEntry) : Option ℕ :=
  if batchNumber ≠ "" then
    arrFindIndex (fun med => med.medID == medID && med.batchNumber == batchNumber) stock
  else
    arrFindIndex (fun med => med.medID == medID) stock

/-- One iteration of the deduction loop of `createBilling`
(storeService.js lines 409–429): locate the line's medicine, fail if
absent or short, otherwise deduct and splice the entry out when its
quantity drops to (at most) 0. -/
def deductOne (stock : List StockEntry) (p : Product) :
    Except BillingErr (List StockEntry) :=
  match billingFindIndex p.medID stock with
  | none => .error (.medicineNotFound p.medID)
  | some i =>
      let q := (stock.get! i).quantity
      if q < p.quantity then
        .error (.insufficientStock p.medID)
      else
        let q' := q - p.quantity
        if q' ≤ 0 then
          .ok (stock.eraseIdx i)
        else
          .ok (stock.set i { stock.get! i with quantity := q' })

/-- The whole `for (const product of products)` validation-and-deduction
loop of `createBilling`, threading the (session-local) stock state. -/
def processProducts (stock : List StockEntry) :
    List Product → Except BillingErr (List StockEntry)
  | [] => .ok stock
  | p :: ps =>
      match deductOne stock p with
      | .error e => .error e
      | .ok stock' => processProducts stock' ps

/-- `createBilling` (storeService.js lines 395–467) on a loaded store:
run the deduction loop and append the billing record inside one MongoDB
transaction. A throw aborts the transaction, so the observable store
on failure is the pre-call store; we return the observable store next
to the outcome. -/
def createBilling (s : Store) (products : List Product) (createdAt : ℤ)
    (totalAmount : ℚ) : Store × Option BillingErr :=
  match processProducts s.stock products with
  | .error e => (s, some e)
  | .ok newStock =>
      ({ stock := newStock,
         billingHistory := s.billingHistory ++
           [{ createdAt := createdAt, totalAmount := totalAmount,
              productList := products }] }, none)

/-- Total quantity held in a stock ledger. -/
def sumQty (stock : List StockEntry) : ℤ :=
  (stock.map (·.quantity)).sum

/-- Total quantity requested by a product list. -/
def sumReq (products : List Product) : ℤ :=
  (products.map (·.quantity)).sum

/-! ## JS Date model

A JS `Date` is modelled as its epoch value in milliseconds (`ℤ`), with a
proleptic-Gregorian civil calendar and no timezone offset (local time =
UTC, no DST). Civil/day conversions follow the standard era-based
closed forms. `setDate`, `setMonth`, `setHours` and the `Date(y, m, d)`
constructor are modelled by their normalizing semantics. -/

/-- Milliseconds per day. -/
def dayMs : ℤ := 86400000

/-- Milliseconds per hour. -/
def hourMs : ℤ := 3600000

/-- Civil date (year, month 1–12, day 1–31) of a day count from the epoch
1970-01-01 (proleptic Gregorian). -/
def civilFromDays (z : ℤ) : ℤ × ℤ × ℤ :=
  let z2 := z + 719468
  let era := z2.ediv 146097
  let doe := z2 - era * 146097
  let yoe := (doe - doe.ediv 1460 + doe.ediv 36524 - doe.ediv 146096).ediv 365
  let y := yoe + era * 400
  let doy := doe - (365 * yoe + yoe.ediv 4 - yoe.ediv 100)
  let mp := (5 * doy + 2).ediv 153
  let d := doy - (153 * mp + 2).ediv 5 + 1
  let m := if mp < 10 then mp + 3 else mp - 9
  (if m ≤ 2 then y + 1 else y, m, d)

/-- Day count from the epoch of a civil date (year, month 1–12, day). -/
def daysFromCivil (y m d : ℤ) : ℤ :=
  let y2 := if m ≤ 2 then y - 1 else y
  let era := y2.ediv 400
  let yoe := y2 - era * 400
  let mp := if 2 < m then m - 3 else m + 9
  let doy := (153 * mp + 2).ediv 5 + d - 1
  let doe := yoe * 365 + yoe.ediv 4 - yoe.ediv 100 + doy
  era * 146097 + doe - 719468

/-- Whole days from the epoch of a timestamp (JS date part). -/
def epochDay (t : ℤ) : ℤ := t.ediv dayMs

/-- Milliseconds elapsed since local midnight, in `[0, dayMs)`. -/
def timeOfDay (t : ℤ) : ℤ := t.emod dayMs

/-- Civil (year, month, day) triple of a timestamp. -/
def dateTriple (t : ℤ) : ℤ × ℤ × ℤ := civilFromDays (epochDay t)

/-- JS `getFullYear()`. -/
def getFullYear (t : ℤ) : ℤ := (dateTriple t).1

/-- JS `getMonth()` (0-based, 0–11). -/
def getMonth (t : ℤ) : ℤ := (dateTriple t).2.1 - 1

/-- JS `getDate()` (day of month, 1–31). -/
def getDate (t : ℤ) : ℤ := (dateTriple t).2.2

/-- JS `getHours()`. -/
def getHours (t : ℤ) : ℤ := (timeOfDay t).ediv hourMs

/-- JS `getDay()` (day of week, 0 = Sunday); 1970-01-01 was a Thursday. -/
def getDay (t : ℤ) : ℤ := (epochDay t + 4).emod 7

/-- JS `new Date(y, m, d)` at local midnight: month `m` is 0-based and
overflowing month/day values roll over, exactly as in JS. -/
def mkDate (y m d : ℤ) : ℤ :=
  (daysFromCivil (y + m.ediv 12) (m.emod 12 + 1) 1 + (d - 1)) * dayMs

/-- JS `d.setHours(h, mi, s, ms)`: keep the date part, replace the time
of day. -/
def setHours (t h mi s ms : ℤ) : ℤ :=
  epochDay t * dayMs + h * hourMs + mi * 60000 + s * 1000 + ms

/-- JS `d.setDate(n)`: move to day-of-month `n` of the current month,
with rollover — equivalently, shift by `(n - getDate d)` whole days while
keeping the time of day. -/
def setDate (t n : ℤ) : ℤ := t + (n - getDate t) * dayMs

/-- `Math.ceil(a / b)` for an integer-valued ratio context (`b > 0`). -/
def ceilDiv (a b : ℤ) : ℤ := (a + b - 1).ediv b

/-! ## Analytics service model (`analyticsService.js`) -/

/-- Error thrown by the analytics period switch. -/
inductive AnalyticsErr where
  | invalidPeriod : AnalyticsErr
  deriving DecidableEq, Repr

/-- Chart granularity chosen by `getSalesAnalytics`. -/
inductive ChartType where
  | hourly | daily | monthly
  deriving DecidableEq, Repr

/-- The window and comparison window computed by the period switch of
`getSalesAnalytics` (analyticsService.js lines 217–306). In the source
every reachable branch assigns all four dates, so they are not optional. -/
structure ResolvedPeriod where
  startDate : ℤ
  endDate : ℤ
  comparisonStart : ℤ
  comparisonEnd : ℤ
  chartType : ChartType
  deriving DecidableEq, Repr

/-- The period switch of `getSalesAnalytics` (lines 217–306): the custom
branch runs when `period === 'custom'` and both explicit dates are
provided; otherwise the legacy named periods, and `INVALID_PERIOD` for
everything else. `daysDiff = Math.ceil((end-start)/86400000)`. -/
def resolvePeriod (now : ℤ) (period : String) (customStart customEnd : Option ℤ) :
    Except AnalyticsErr ResolvedPeriod :=
  if period = "custom" ∧ customStart.isSome ∧ customEnd.isSome then
    let s := customStart.getD 0
    let e := customEnd.getD 0
    let daysDiff := ceilDiv (e - s) dayMs
    let chartType := if daysDiff ≤ 1 then ChartType.hourly
      else if daysDiff ≤ 31 then ChartType.daily
      else ChartType.monthly
    .ok ⟨s, e, setDate s (getDate s - daysDiff), setDate e (getDate e - daysDiff),
      chartType⟩
  else if period = "today" then
    let s := setHours now 0 0 0 0
    let e := setHours now 23 59 59 999
    .ok ⟨s, e, setDate s (getDate s - 1), setDate e (getDate e - 1), .hourly⟩
  else if period = "yesterday" then
    let s := setHours (setDate now (getDate now - 1)) 0 0 0 0
    let e := setHours s 23 59 59 999
    .ok ⟨s, e, setDate s (getDate s - 1), setDate e (getDate e - 1), .hourly⟩
  else if period = "thisWeek" then
    let s := setHours (setDate now (getDate now - getDay now)) 0 0 0 0
    let e := setHours now 23 59 59 999
    .ok ⟨s, e, setDate s (getDate s - 7), setDate e (getDate e - 7), .daily⟩
  else if period = "thisMonth" then
    let s := mkDate (getFullYear now) (getMonth now) 1
    let e := setHours now 23 59 59 999
    .ok ⟨s, e, mkDate (getFullYear now) (getMonth now - 1) 1,
      setHours (mkDate (getFullYear now) (getMonth now) 0) 23 59 59 999, .daily⟩
  else if period = "thisYear" then
    let s := mkDate (getFullYear now) 0 1
    let e := setHours now 23 59 59 999
    .ok ⟨s, e, mkDate (getFullYear now - 1) 0 1,
      setHours (mkDate (getFullYear now - 1) (getMonth now) (getDate now)) 23 59 59 999,
      .monthly⟩
  else
    .error .invalidPeriod

/-- The period switch of `getTopSellingMedicines` (lines 373–388): note
the `default` arm silently uses the 1st of the current month — there is
no error path in this function. -/
def topSellingStartDate (now : ℤ) (period : String) : ℤ :=
  if period = "today" then setHours now 0 0 0 0
  else if period = "thisWeek" then
    setHours (setDate now (getDate now - getDay now)) 0 0 0 0
  else if period = "thisYear" then mkDate (getFullYear now) 0 1
  else mkDate (getFullYear now) (getMonth now) 1

/-- JS `Math.round` (round half toward +∞). -/
def jsRound (q : ℚ) : ℤ := ⌊q + 1 / 2⌋

/-- `Math.round(x * 100) / 100`: round to 2 decimal places at output. -/
def round2 (q : ℚ) : ℚ := (jsRound (q * 100) : ℚ) / 100

/-- The `$match` window test: `createdAt` in `[startDate, endDate]`,
both bounds inclusive (`$gte` / `$lte`). -/
def inWindow (s e : ℤ) (r : BillingRecord) : Bool :=
  decide (s ≤ r.createdAt) && decide (r.createdAt ≤ e)

/-- The `$reduce` over a record's `productList` summing `quantity`. -/
def recordItems (r : BillingRecord) : ℤ :=
  (r.productList.map (·.quantity)).sum

/-- Result shape of `getSalesForPeriodAggregated`. -/
structure PeriodTotals where
  totalSales : ℚ
  transactionCount : ℤ
  itemsSold : ℤ
  averageTransaction : ℚ
  deriving DecidableEq, Repr

/-- `getSalesForPeriodAggregated` (lines 34–74): aggregate the records
whose `createdAt` lies in the window; sums accumulate raw and are
rounded to 2 decimals only in the returned object; the average divides
the raw total by the count (0 for an empty window, which also matches
the early return for an empty aggregation result). -/
def getSalesForPeriodAggregated (history : List BillingRecord) (s e : ℤ) :
    PeriodTotals :=
  let recs := history.filter (inWindow s e)
  let total := (recs.map (·.totalAmount)).sum
  let count : ℤ := recs.length
  { totalSales := round2 total,
    transactionCount := count,
    itemsSold := (recs.map recordItems).sum,
    averageTransaction := if 0 < count then round2 (total / count) else 0 }

/-- Hour label `${hour.toString().padStart(2, '0')}:00`. -/
def hourLabel (h : ℕ) : String :=
  (if h < 10 then "0" ++ toString h else toString h) ++ ":00"

/-- One entry of the hourly series (`hour` label, sales, transactions). -/
structure HourBucket where
  hour : String
  sales : ℚ
  transactions : ℤ
  deriving DecidableEq, Repr

/-- One entry of the daily series. The source carries the calendar date
both as an ISO `date` string and a localized `label`; in the timezone-free
model both are determined by the epoch-day number, which we store. -/
structure DayBucket where
  day : ℤ
  sales : ℚ
  transactions : ℤ
  deriving DecidableEq, Repr

/-- One entry of the monthly series; the calendar month is stored as the
linear month index `12 * year + month`. -/
structure MonthBucket where
  monthIdx : ℤ
  sales : ℚ
  transactions : ℤ
  deriving DecidableEq, Repr

/-- `getHourlyBreakdownAggregated` (lines 79–115): group the day's
records by `$hour`, then emit all 24 hours in order, zero-filled where
the grouped result has no entry for that hour (fusing the group-then-find
of the source: the group for hour `h` exists iff some record matches). -/
def getHourlyBreakdownAggregated (history : List BillingRecord) (date : ℤ) :
    List HourBucket :=
  let dayStart := setHours date 0 0 0 0
  let dayEnd := setHours date 23 59 59 999
  (List.range 24).map (fun (h : ℕ) =>
    let recs := history.filter (fun r =>
      inWindow dayStart dayEnd r && decide (getHours r.createdAt = (h : ℤ)))
    { hour := hourLabel h,
      sales := if recs.isEmpty then 0 else round2 ((recs.map (·.totalAmount)).sum),
      transactions := if recs.isEmpty then 0 else (recs.length : ℤ) })

/-- The bucket the daily loop of `getDailyBreakdownAggregated` emits for
the cursor date `t`: matched records are those in the window whose
`$year/$month/$dayOfMonth` triple equals the cursor's. -/
def dailyBucket (history : List BillingRecord) (s e t : ℤ) : DayBucket :=
  let recs := history.filter (fun r =>
    inWindow s e r && decide (dateTriple r.createdAt = dateTriple t))
  { day := epochDay t,
    sales := if recs.isEmpty then 0 else round2 ((recs.map (·.totalAmount)).sum),
    transactions := if recs.isEmpty then 0 else (recs.length : ℤ) }

/-- The `while (current <= endDate)` fill loop of
`getDailyBreakdownAggregated` (lines 143–161): one bucket per iteration,
stepping the cursor a whole day (`current.setDate(current.getDate()+1)`). -/
def dailyLoop (history : List BillingRecord) (s e : ℤ) (current : ℤ) :
    List DayBucket :=
  if h : current ≤ e then
    dailyBucket history s e current :: dailyLoop history s e (current + dayMs)
  else []
termination_by (e + dayMs - current).toNat
decreasing_by
  simp only [dayMs] at *
  omega

/-- `getDailyBreakdownAggregated` (lines 120–164): cursor starts at
`startDate` itself (`new Date(startDate)`). -/
def getDailyBreakdownAggregated (history : List BillingRecord) (s e : ℤ) :
    List DayBucket :=
  dailyLoop history s e s

/-- Linear month index `12 * year + month` (month 0-based); the monthly
fill loop's cursor is always the 1st of a month, so it is determined by
this index, and `current <= endMonth` on such dates is exactly `≤` on
indices. -/
def monthIdx (t : ℤ) : ℤ := 12 * getFullYear t + getMonth t

/-- The bucket the monthly loop emits for month index `idx`: matched
records are those in the window whose `$year/$month` equals the cursor's. -/
def monthBucket (history : List BillingRecord) (s e : ℤ) (idx : ℤ) : MonthBucket :=
  let recs := history.filter (fun r =>
    inWindow s e r && decide (monthIdx r.createdAt = idx))
  { monthIdx := idx,
    sales := if recs.isEmpty then 0 else round2 ((recs.map (·.totalAmount)).sum),
    transactions := if recs.isEmpty then 0 else (recs.length : ℤ) }

/-- The `while (current <= endMonth)` fill loop of
`getMonthlyBreakdownAggregated` (lines 192–209), on month indices
(`current.setMonth(current.getMonth()+1)` is `+1` on the index). -/
def monthlyLoop (history : List BillingRecord) (s e : ℤ) (idx endIdx : ℤ) :
    List MonthBucket :=
  if h : idx ≤ endIdx then
    monthBucket history s e idx :: monthlyLoop history s e (idx + 1) endIdx
  else []
termination_by (endIdx + 1 - idx).toNat
decreasing_by omega

/-- `getMonthlyBreakdownAggregated` (lines 169–212): cursor from the 1st
of `startDate`'s month to the 1st of `endDate`'s month. -/
def getMonthlyBreakdownAggregated (history : List BillingRecord) (s e : ℤ) :
    List MonthBucket :=
  monthlyLoop history s e (monthIdx s) (monthIdx e)

/-- The Sales Aggregator contract transcribed from the spec's words
(§4.3): scan `billingHistory` entries with `createdAt` in `[start, end]`;
`totalSales` = sum of `totalAmount`; `itemsSold` = sum over all line
items' quantities; `averageTransaction` = `totalSales / transactionCount`
(0 if no transactions); monetary sums rounded to 2 decimal places at the
point of output, not during intermediate accumulation. -/
def specAggregateSales (history : List BillingRecord) (s e : ℤ) : PeriodTotals :=
  let recs := history.filter (fun r => decide (s ≤ r.createdAt ∧ r.createdAt ≤ e))
  let raw := (recs.map (·.totalAmount)).sum
  let count : ℤ := recs.length
  { totalSales := round2 raw,
    transactionCount := count,
    itemsSold := ((recs.map (·.productList)).flatten.map (·.quantity)).sum,
    averageTransaction := if count = 0 then 0 else round2 (raw / count) }

/-! ## Analytics cache model

The source keys the cache map by the string
`` `${email}:${startDate.toISOString()}:${endDate.toISOString()}` ``;
(email, start, end) determine that string, so the key is modelled as the
triple itself. The `Map` is modelled as an association list whose `set`
replaces any previous binding of the key. -/

/-- Cache key: (store identity, window start, window end). -/
def CacheKey : Type := String × ℤ × ℤ

instance : DecidableEq CacheKey := by
  unfold CacheKey
  infer_instance

/-- Full analytics payload cached and returned by `getSalesAnalytics`.
The three chart kinds of `chartData` are kept as one sum type. -/
inductive ChartData where
  | hourly (buckets : List HourBucket)
  | daily (buckets : List DayBucket)
  | monthly (buckets : List MonthBucket)
  deriving DecidableEq, Repr

/-- The result object of `getSalesAnalytics` (lines 342–356). -/
structure AnalyticsResult where
  periodName : String
  startDate : ℤ
  endDate : ℤ
  current : PeriodTotals
  comparison : PeriodTotals
  growthPercentage : ℤ
  growthIsPositive : Bool
  chartType : ChartType
  chartData : ChartData
  deriving DecidableEq, Repr

/-- One cache slot: `{ data, timestamp }` as stored by `setCache`. -/
structure CacheEntry where
  data : AnalyticsResult
  timestamp : ℤ
  deriving DecidableEq, Repr

/-- The in-memory `analyticsCache` map. -/
def Cache : Type := List (CacheKey × CacheEntry)

/-- `CACHE_TTL = 5 * 60 * 1000`. -/
def CACHE_TTL : ℤ := 5 * 60 * 1000

/-- `analyticsCache.get(key)` (Map lookup). -/
def cacheLookup (k : CacheKey) (c : Cache) : Option CacheEntry :=
  (c.find? (fun kv => decide (kv.1 = k))).map (·.2)

/-- `analyticsCache.delete(key)` (Map delete; no-op when absent). -/
def cacheErase (k : CacheKey) (c : Cache) : Cache :=
  c.filter (fun kv => !decide (kv.1 = k))

/-- `getFromCache` (lines 18–25): return the cached data while the entry
is younger than `CACHE_TTL`; otherwise delete the entry (lazy eviction)
and miss. The returned cache is the map state after the call. -/
def getFromCache (c : Cache) (k : CacheKey) (now : ℤ) :
    Option AnalyticsResult × Cache :=
  match cacheLookup k c with
  | some entry =>
      if now - entry.timestamp < CACHE_TTL then (some entry.data, c)
      else (none, cacheErase k c)
  | none => (none, cacheErase k c)

/-- `setCache` (lines 27–29): `Map.set` stamps `Date.now()`. -/
def cacheSet (c : Cache) (k : CacheKey) (data : AnalyticsResult) (now : ℤ) : Cache :=
  (k, ⟨data, now⟩) :: cacheErase k c

/-- `getSalesAnalytics` (lines 217–364) after the store has been loaded:
resolve the period, consult the cache, and on a miss aggregate the
current and comparison windows, build the chart series, compute growth
(0 when the comparison total is not positive), and cache the result.
The final `Bool` records whether the billing history was scanned
(`false` exactly when served from cache). -/
def getSalesAnalyticsModel (now : ℤ) (email : String) (period : String)
    (customStart customEnd : Option ℤ) (history : List BillingRecord)
    (cache : Cache) : Except AnalyticsErr (AnalyticsResult × Cache × Bool) :=
  match resolvePeriod now period customStart customEnd with
  | .error e => .error e
  | .ok r =>
      let key : CacheKey := (email, r.startDate, r.endDate)
      match getFromCache cache key now with
      | (some data, cache') => .ok (data, cache', false)
      | (none, cache') =>
          let current := getSalesForPeriodAggregated history r.startDate r.endDate
          let comparison :=
            getSalesForPeriodAggregated history r.comparisonStart r.comparisonEnd
          let chartData := match r.chartType with
            | .hourly => ChartData.hourly (getHourlyBreakdownAggregated history r.startDate)
            | .daily => ChartData.daily
                (getDailyBreakdownAggregated history r.startDate r.endDate)
            | .monthly => ChartData.monthly
                (getMonthlyBreakdownAggregated history r.startDate r.endDate)
          let growth := if 0 < comparison.totalSales then
              jsRound (((current.totalSales - comparison.totalSales) /
                comparison.totalSales) * 100)
            else 0
          let result : AnalyticsResult :=
            { periodName := period, startDate := r.startDate, endDate := r.endDate,
              current := current, comparison := comparison,
              growthPercentage := growth, growthIsPositive := decide (0 ≤ growth),
              chartType := r.chartType, chartData := chartData }
          .ok (result, cacheSet cache' key result now, true)

/-- Recursive characterization of `deductOne` (first-match deduction),
used only inside proofs. -/
def deductRec (p : Product) : List StockEntry → Except BillingErr (List StockEntry)
  | [] => .error (.medicineNotFound p.medID)
  | e :: es =>
      if e.medID == p.medID then
        if e.quantity < p.quantity then
          .error (.insufficientStock p.medID)
        else if e.quantity - p.quantity ≤ 0 then
          .ok es
        else
          .ok ({ e with quantity := e.quantity - p.quantity } :: es)
      else
        (deductRec p es).map (e :: ·)

lemma deductOne_eq_deductRec (p : Product) :
    ∀ stock : List StockEntry, deductOne stock p = deductRec p stock := by
  intro stock
  induction stock with
  | nil => rfl
  | cons e es ih =>
      by_cases he : (e.medID == p.medID) = true
      · simp [deductOne, billingFindIndex, arrFindIndex, he, deductRec]
      · have he' : (e.medID == p.medID) = false := by
          simpa using he
        have hR : deductRec p (e :: es) = (deductOne es p).map (e :: ·) := by
          rw [ih]
          simp [deductRec, he']
        rw [hR]
        cases hfind : arrFindIndex (fun med => med.medID == p.medID) es with
        | none =>
            simp [deductOne, billingFindIndex, arrFindIndex, he', hfind, Except.map]
        | some j =>
            simp only [deductOne, billingFindIndex, arrFindIndex, he', hfind,
              Bool.false_eq_true, if_false, Option.map_some']
            simp only [List.get!_cons_succ, List.set_cons_succ, List.eraseIdx_cons_succ]
            split
            · simp [Except.map]
            · split <;> simp [Except.map]

@[simp] lemma sumQty_nil : sumQty [] = 0 := rfl

@[simp] lemma sumQty_cons (e : StockEntry) (es : List StockEntry) :
    sumQty (e :: es) = e.quantity + sumQty es := by
  simp [sumQty]

@[simp] lemma sumQty_append (l₁ l₂ : List StockEntry) :
    sumQty (l₁ ++ l₂) = sumQty l₁ + sumQty l₂ := by
  simp [sumQty]

@[simp] lemma sumReq_nil : sumReq [] = 0 := rfl

@[simp] lemma sumReq_cons (p : Product) (ps : List Product) :
    sumReq (p :: ps) = p.quantity + sumReq ps := by
  simp [sumReq]

lemma deductRec_ok_sum {p : Product} :
    ∀ {stock st' : List StockEntry}, deductRec p stock = .ok st' →
      sumQty st' = sumQty stock - p.quantity := by
  intro stock
  induction stock with
  | nil => intro st' h; simp [deductRec] at h
  | cons e es ih =>
      intro st' h
      simp only [deductRec] at h
      split at h
      · split at h
        · simp at h
        · rename_i hlt
          split at h
          · rename_i hz
            simp only [Except.ok.injEq] at h
            subst h
            have : e.quantity = p.quantity := by omega
            simp [this]
          · simp only [Except.ok.injEq] at h
            subst h
            simp
            ring
      · cases hrec : deductRec p es with
        | error err => rw [hrec] at h; simp [Except.map] at h
        | ok es' =>
            rw [hrec] at h
            simp only [Except.map, Except.ok.injEq] at h
            subst h
            have := ih hrec
            simp
            omega

lemma deductRec_ok_pos {p : Product} :
    ∀ {stock st' : List StockEntry}, deductRec p stock = .ok st' →
      (∀ e ∈ stock, 0 < e.quantity) → ∀ e ∈ st', 0 < e.quantity := by
  intro stock
  induction stock with
  | nil => intro st' h; simp [deductRec] at h
  | cons e es ih =>
      intro st' h hpos
      simp only [deductRec] at h
      split at h
      · split at h
        · simp at h
        · rename_i hlt
          split at h
          · simp only [Except.ok.injEq] at h
            subst h
            exact fun y hy => hpos y (by simp [hy])
          · rename_i hz
            simp only [Except.ok.injEq] at h
            subst h
            intro y hy
            rcases List.mem_cons.mp hy with hy | hy
            · subst hy; simpa using by omega
            · exact hpos y (by simp [hy])
      · cases hrec : deductRec p es with
        | error err => rw [hrec] at h; simp [Except.map] at h
        | ok es' =>
            rw [hrec] at h
            simp only [Except.map, Except.ok.injEq] at h
            subst h
            intro y hy
            rcases List.mem_cons.mp hy with hy | hy
            · subst hy; exact hpos y (by simp)
            · exact ih hrec (fun z hz => hpos z (by simp [hz])) y hy

lemma deductRec_error_shape {p : Product} :
    ∀ {stock : List StockEntry} {err : BillingErr}, deductRec p stock = .error err →
      err = .medicineNotFound p.medID ∨ err = .insufficientStock p.medID := by
  intro stock
  induction stock with
  | nil =>
      intro err h
      simp only [deductRec, Except.error.injEq] at h
      exact Or.inl h.symm
  | cons e es ih =>
      intro err h
      simp only [deductRec] at h
      split at h
      · split at h
        · simp only [Except.error.injEq] at h
          exact Or.inr h.symm
        · split at h <;> simp at h
      · cases hrec : deductRec p es with
        | error err' =>
            rw [hrec] at h
            simp only [Except.map, Except.error.injEq] at h
            subst h
            exact ih hrec
        | ok es' => rw [hrec] at h; simp [Except.map] at h

lemma processProducts_cons (stock : List StockEntry) (p : Product) (ps : List Product) :
    processProducts stock (p :: ps) =
      match deductRec p stock with
      | .error e => .error e
      | .ok stock' => processProducts stock' ps := by
  rw [processProducts, deductOne_eq_deductRec]

lemma processProducts_ok_sum :
    ∀ {ps : List Product} {stock st' : List StockEntry},
      processProducts stock ps = .ok st' → sumQty st' = sumQty stock - sumReq ps := by
  intro ps
  induction ps with
  | nil =>
      intro stock st' h
      simp only [processProducts, Except.ok.injEq] at h
      subst h
      simp
  | cons p ps ih =>
      intro stock st' h
      rw [processProducts_cons] at h
      cases hrec : deductRec p stock with
      | error e => rw [hrec] at h; simp at h
      | ok stock' =>
          rw [hrec] at h
          have h1 := deductRec_ok_sum hrec
          have h2 := ih h
          simp only [sumReq_cons]
          omega

lemma processProducts_ok_pos :
    ∀ {ps : List Product} {stock st' : List StockEntry},
      processProducts stock ps = .ok st' →
      (∀ e ∈ stock, 0 < e.quantity) → ∀ e ∈ st', 0 < e.quantity := by
  intro ps
  induction ps with
  | nil =>
      intro stock st' h hpos
      simp only [processProducts, Except.ok.injEq] at h
      subst h
      exact hpos
  | cons p ps ih =>
      intro stock st' h hpos
      rw [processProducts_cons] at h
      cases hrec : deductRec p stock with
      | error e => rw [hrec] at h; simp at h
      | ok stock' =>
          rw [hrec] at h
          exact ih h (deductRec_ok_pos hrec hpos)

lemma processProducts_error_shape :
    ∀ {ps : List Product} {stock : List StockEntry} {err : BillingErr},
      processProducts stock ps = .error err →
      ∃ m, m ∈ ps.map Product.medID ∧
        (err = .medicineNotFound m ∨ err = .insufficientStock m) := by
  intro ps
  induction ps with
  | nil => intro stock err h; simp [processProducts] at h
  | cons p ps ih =>
      intro stock err h
      rw [processProducts_cons] at h
      cases hrec : deductRec p stock with
      | error e =>
          rw [hrec] at h
          simp only [Except.error.injEq] at h
          subst h
          exact ⟨p.medID, by simp, deductRec_error_shape hrec⟩
      | ok stock' =>
          rw [hrec] at h
          obtain ⟨m, hm, hshape⟩ := ih h
          exact ⟨m, by simp [hm], hshape⟩

lemma deductRec_skip {p : Product} {pre rest : List StockEntry}
    (hpre : ∀ y ∈ pre, y.medID ≠ p.medID) :
    deductRec p (pre ++ rest) = (deductRec p rest).map (pre ++ ·) := by
  induction pre with
  | nil => cases h : deductRec p rest <;> simp [Except.map, h]
  | cons a pre' ih =>
      have ha : (a.medID == p.medID) = false := by
        simpa using hpre a (by simp)
      have ih' := ih (fun y hy => hpre y (by simp [hy]))
      simp only [List.cons_append, deductRec, ha, Bool.false_eq_true, if_false,
        List.append_eq]
      rw [ih']
      cases h : deductRec p rest <;> simp [Except.map, h]

lemma processProducts_cons_error {stock : List StockEntry} {p : Product}
    {ps : List Product} {e : BillingErr} (h : deductRec p stock = .error e) :
    processProducts stock (p :: ps) = .error e := by
  simp only [processProducts, deductOne_eq_deductRec, h]

lemma processProducts_cons_ok {stock st' : List StockEntry} {p : Product}
    {ps : List Product} (h : deductRec p stock = .ok st') :
    processProducts stock (p :: ps) = processProducts st' ps := by
  simp only [processProducts, deductOne_eq_deductRec, h]

lemma deductRec_absent {p : Product} {stock : List StockEntry}
    (h : ∀ y ∈ stock, y.medID ≠ p.medID) :
    deductRec p stock = .error (.medicineNotFound p.medID) := by
  induction stock with
  | nil => rfl
  | cons a es ih =>
      have ha : (a.medID == p.medID) = false := by
        simpa using h a (by simp)
      have ih' := ih (fun y hy => h y (by simp [hy]))
      simp [deductRec, ha, ih', Except.map]

/-- C1: if any line item of a `createBilling` call fails validation, the
call fails with `MedicineNotFound(id)` or `InsufficientStock(id)` naming
the medID of one of the requested products, and the observable store
(stock ledger and billing history) is exactly the pre-call store — no
partial deduction and no history append. -/
theorem C1_createBilling_atomic (s : Store) (products : List Product)
    (createdAt : ℤ) (totalAmount : ℚ) (e : BillingErr)
    (h : processProducts s.stock products = .error e) :
    createBilling s products createdAt totalAmount = (s, some e) ∧
    ∃ m, m ∈ products.map Product.medID ∧
      (e = .medicineNotFound m ∨ e = .insufficientStock m) := by
  refine ⟨?_, processProducts_error_shape h⟩
  simp [createBilling, h]

/-- Witness for C1 at a concrete input: deducting 4 of an in-stock
medicine then hitting an absent one fails with `MEDICINE_NOT_FOUND:IBU`
and leaves the store untouched. -/
theorem C1_createBilling_atomic_witness :
    createBilling ⟨[⟨"PARA", "", 10⟩], []⟩ [⟨"PARA", 4⟩, ⟨"IBU", 1⟩] 0 0 =
      (⟨[⟨"PARA", "", 10⟩], []⟩, some (.medicineNotFound "IBU")) ∧
    ∃ m, m ∈ ([⟨"PARA", 4⟩, ⟨"IBU", 1⟩] : List Product).map Product.medID ∧
      ((BillingErr.medicineNotFound "IBU") = .medicineNotFound m ∨
       (BillingErr.medicineNotFound "IBU") = .insufficientStock m) :=
  C1_createBilling_atomic ⟨[⟨"PARA", "", 10⟩], []⟩ [⟨"PARA", 4⟩, ⟨"IBU", 1⟩] 0 0
    (.medicineNotFound "IBU") rfl

/-- C2: for a successful `createBilling` call the total stock quantity
drops by exactly the total requested quantity (conservation), and —
assuming the ledger invariant that all quantities are positive before
the call — every entry after the call still has positive quantity: no
entry goes negative and no zero-quantity entry persists (an entry whose
quantity reaches 0 is spliced out). -/
theorem C2_createBilling_conservation (s : Store) (products : List Product)
    (createdAt : ℤ) (totalAmount : ℚ) (s' : Store)
    (h : createBilling s products createdAt totalAmount = (s', none))
    (hpos : ∀ e ∈ s.stock, 0 < e.quantity) :
    sumQty s'.stock = sumQty s.stock - sumReq products ∧
    ∀ e ∈ s'.stock, 0 < e.quantity := by
  cases hp : processProducts s.stock products with
  | error e => simp [createBilling, hp] at h
  | ok newStock =>
      have h1 : s'.stock = newStock := by
        simp only [createBilling, hp] at h
        have := congrArg Prod.fst h
        simp at this
        rw [← this]
      rw [h1]
      exact ⟨processProducts_ok_sum hp, processProducts_ok_pos hp hpos⟩

/-- Witness for C2 at a concrete input: stock {P:5, Q:2}, bill for
5×P and 1×Q succeeds; P reaches 0 and is removed, totals drop 7 → 1. -/
theorem C2_createBilling_conservation_witness :
    sumQty (Store.mk [⟨"Q", "", 1⟩]
        [⟨7, 30, [⟨"P", 5⟩, ⟨"Q", 1⟩]⟩]).stock =
      sumQty (Store.mk [⟨"P", "", 5⟩, ⟨"Q", "", 2⟩] []).stock -
        sumReq [⟨"P", 5⟩, ⟨"Q", 1⟩] ∧
    ∀ e ∈ (Store.mk [⟨"Q", "", 1⟩]
        [⟨7, 30, [⟨"P", 5⟩, ⟨"Q", 1⟩]⟩]).stock, 0 < e.quantity :=
  C2_createBilling_conservation ⟨[⟨"P", "", 5⟩, ⟨"Q", "", 2⟩], []⟩
    [⟨"P", 5⟩, ⟨"Q", 1⟩] 7 30 _ rfl (by decide)

/-- C4 counterexample: with batch tracking in use, the add path and the
deduct paths locate *different* entries of the same ledger. Stock holds
two batches of medicine A; `addToStock` with batch b2 merges into the
second entry, while `removeFromStock` and `createBilling` deduct from
the first. -/
theorem C4_matching_policy_counterexample :
    addFindIndex "A" "b2" [⟨"A", "b1", 5⟩, ⟨"A", "b2", 5⟩] = some 1 ∧
    removeFindIndex "A" [⟨"A", "b1", 5⟩, ⟨"A", "b2", 5⟩] = some 0 ∧
    billingFindIndex "A" [⟨"A", "b1", 5⟩, ⟨"A", "b2", 5⟩] = some 0 ∧
    addFindIndex "A" "b2" [⟨"A", "b1", 5⟩, ⟨"A", "b2", 5⟩] ≠
      removeFindIndex "A" [⟨"A", "b1", 5⟩, ⟨"A", "b2", 5⟩] := by
  refine ⟨rfl, rfl, rfl, ?_⟩
  decide

/-- C4 amended: the matching policy is identical across the add and
deduct paths *when no batch number is supplied on add* — all three sites
then take the first entry whose medID matches; the deduct paths always
ignore `batchNumber`. -/
theorem C4_matching_policy_no_batch (medID : String) (stock : List StockEntry) :
    addFindIndex medID "" stock = removeFindIndex medID stock ∧
    removeFindIndex medID stock = billingFindIndex medID stock := by
  refine ⟨?_, rfl⟩
  simp [addFindIndex, removeFindIndex]

/-- C10: inside one `createBilling` call with two line items for the same
medicine (held in a single ledger entry of quantity `x.quantity`), the
second line is validated against the quantity left by the first: if the
first line consumes the entry exactly, the second fails with
`MedicineNotFound`; if a positive remainder is smaller than the second
request, it fails `InsufficientStock`; otherwise it succeeds. -/
theorem C10_duplicate_line_sequential (pre post : List StockEntry)
    (x : StockEntry) (m : String) (q1 q2 : ℤ)
    (hpre : ∀ y ∈ pre, y.medID ≠ m) (hpost : ∀ y ∈ post, y.medID ≠ m)
    (hm : x.medID = m) :
    (q1 = x.quantity →
      processProducts (pre ++ x :: post) [⟨m, q1⟩, ⟨m, q2⟩] =
        .error (.medicineNotFound m)) ∧
    (q1 < x.quantity → x.quantity - q1 < q2 →
      processProducts (pre ++ x :: post) [⟨m, q1⟩, ⟨m, q2⟩] =
        .error (.insufficientStock m)) ∧
    (q1 < x.quantity → q2 ≤ x.quantity - q1 →
      ∃ st', processProducts (pre ++ x :: post) [⟨m, q1⟩, ⟨m, q2⟩] = .ok st') := by
  have hx : (x.medID == m) = true := by simp [hm]
  refine ⟨?_, ?_, ?_⟩
  · intro hq1
    have h1 : deductRec ⟨m, q1⟩ (pre ++ x :: post) = .ok (pre ++ post) := by
      rw [deductRec_skip hpre]
      simp [deductRec, hx, hq1, Except.map]
    rw [processProducts_cons_ok h1,
      processProducts_cons_error (deductRec_absent (p := ⟨m, q2⟩) (by
        intro y hy
        rcases List.mem_append.mp hy with hy | hy
        · exact hpre y hy
        · exact hpost y hy))]
  · intro hq1 hq2
    have h1 : deductRec ⟨m, q1⟩ (pre ++ x :: post) =
        .ok (pre ++ { x with quantity := x.quantity - q1 } :: post) := by
      rw [deductRec_skip hpre]
      have : ¬ (x.quantity < q1) := by omega
      have hz : ¬ (x.quantity - q1 ≤ 0) := by omega
      simp [deductRec, hx, this, hz, Except.map]
    have h2 : deductRec ⟨m, q2⟩
        (pre ++ { x with quantity := x.quantity - q1 } :: post) =
        .error (.insufficientStock m) := by
      rw [deductRec_skip hpre]
      simp [deductRec, hx, hq2, Except.map]
    rw [processProducts_cons_ok h1, processProducts_cons_error h2]
  · intro hq1 hq2
    have h1 : deductRec ⟨m, q1⟩ (pre ++ x :: post) =
        .ok (pre ++ { x with quantity := x.quantity - q1 } :: post) := by
      rw [deductRec_skip hpre]
      have : ¬ (x.quantity < q1) := by omega
      have hz : ¬ (x.quantity - q1 ≤ 0) := by omega
      simp [deductRec, hx, this, hz, Except.map]
    have hlt : ¬ (x.quantity - q1 < q2) := by omega
    by_cases hz : x.quantity - q1 - q2 ≤ 0
    · have h2 : deductRec ⟨m, q2⟩
          (pre ++ { x with quantity := x.quantity - q1 } :: post) =
          .ok (pre ++ post) := by
        rw [deductRec_skip hpre]
        simp [deductRec, hx, hlt, hz, Except.map]
      rw [processProducts_cons_ok h1, processProducts_cons_ok h2]
      exact ⟨pre ++ post, rfl⟩
    · have h2 : deductRec ⟨m, q2⟩
          (pre ++ { x with quantity := x.quantity - q1 } :: post) =
          .ok (pre ++ { x with quantity := x.quantity - q1 - q2 } :: post) := by
        rw [deductRec_skip hpre]
        simp [deductRec, hx, hlt, hz, Except.map]
      rw [processProducts_cons_ok h1, processProducts_cons_ok h2]
      exact ⟨pre ++ { x with quantity := x.quantity - q1 - q2 } :: post, rfl⟩

lemma setDate_shift (t k : ℤ) : setDate t (getDate t - k) = t - k * dayMs := by
  simp only [setDate]
  ring

lemma intEdiv_eq_div (a b : ℤ) : a.ediv b = a / b := rfl

/-- C3 counterexample: at call time 2024-03-15 12:00 the `thisMonth`
comparison window (all of February 2024) is 29 days long while the
current window (March 1 to end of March 15) is 15 days long. -/
theorem C3_growth_symmetry_counterexample :
    resolvePeriod 1710504000000 "thisMonth" none none =
      .ok ⟨1709251200000, 1710547199999, 1706745600000, 1709251199999, .daily⟩ ∧
    (1709251199999 - 1706745600000 : ℤ) ≠ 1710547199999 - 1709251200000 := by
  refine ⟨by rfl, by decide⟩

/-- C3 amended: the comparison window has exactly the length of the
current window for the periods `today`, `yesterday`, `thisWeek` and
`custom` (both endpoints are shifted by the same whole number of days);
for `thisMonth` (whole previous calendar month) and `thisYear`
(year-to-date of the previous year) the lengths differ in general. -/
theorem C3_growth_symmetry_amended (now : ℤ) (period : String)
    (customStart customEnd : Option ℤ) (r : ResolvedPeriod)
    (hp : period = "today" ∨ period = "yesterday" ∨ period = "thisWeek" ∨
      period = "custom")
    (h : resolvePeriod now period customStart customEnd = .ok r) :
    r.comparisonEnd - r.comparisonStart = r.endDate - r.startDate := by
  rcases hp with hp | hp | hp | hp <;> subst hp
  · simp [resolvePeriod] at h
    subst h
    simp [setDate_shift]
  · simp [resolvePeriod] at h
    subst h
    simp [setDate_shift]
  · simp [resolvePeriod] at h
    subst h
    simp [setDate_shift]
  · cases customStart with
    | none => simp [resolvePeriod] at h
    | some cs =>
        cases customEnd with
        | none => simp [resolvePeriod] at h
        | some ce =>
            simp [resolvePeriod] at h
            subst h
            simp [setDate_shift]

/-- Witness for C3 (amended) at a concrete input: `today` at
2024-03-15 12:00 resolves to a comparison window of the same length as
the current window. -/
theorem C3_growth_symmetry_witness :
    (ResolvedPeriod.mk 1710460800000 1710547199999 1710374400000 1710460799999
        .hourly).comparisonEnd -
      (ResolvedPeriod.mk 1710460800000 1710547199999 1710374400000 1710460799999
        .hourly).comparisonStart =
    (ResolvedPeriod.mk 1710460800000 1710547199999 1710374400000 1710460799999
        .hourly).endDate -
      (ResolvedPeriod.mk 1710460800000 1710547199999 1710374400000 1710460799999
        .hourly).startDate :=
  C3_growth_symmetry_amended 1710504000000 "today" none none
    ⟨1710460800000, 1710547199999, 1710374400000, 1710460799999, .hourly⟩
    (Or.inl rfl) (by rfl)

/-- C5 counterexample: a 12-hour custom window [1970-01-01 00:00,
1970-01-01 12:00] gets comparison start `start - 1 day` (= -86400000),
not `start - span` (= -43200000) as the claim states. -/
theorem C5_custom_counterexample :
    resolvePeriod 0 "custom" (some 0) (some 43200000) =
      .ok ⟨0, 43200000, -86400000, -43200000, .hourly⟩ ∧
    (-86400000 : ℤ) ≠ 0 - (43200000 - 0) := by
  refine ⟨by rfl, by decide⟩

/-- C5 amended: for a custom period the granularity is hourly when the
span is at most 1 day, daily when at most 31 days, monthly otherwise —
but the comparison window is both endpoints shifted back by
`Math.ceil(span / day)` whole days (`[start - D·day, end - D·day]` with
`D = ceil(span/day)`), which equals `[start - span, end - span]` only
when the span is a whole number of days. -/
theorem C5_custom_granularity_comparison (now cs ce : ℤ) (r : ResolvedPeriod)
    (h : resolvePeriod now "custom" (some cs) (some ce) = .ok r) :
    (ce - cs ≤ dayMs → r.chartType = .hourly) ∧
    (dayMs < ce - cs → ce - cs ≤ 31 * dayMs → r.chartType = .daily) ∧
    (31 * dayMs < ce - cs → r.chartType = .monthly) ∧
    r.comparisonStart = cs - ceilDiv (ce - cs) dayMs * dayMs ∧
    r.comparisonEnd = ce - ceilDiv (ce - cs) dayMs * dayMs := by
  simp [resolvePeriod] at h
  subst h
  refine ⟨?_, ?_, ?_, ?_, ?_⟩
  · intro hspan
    have hD : ceilDiv (ce - cs) dayMs ≤ 1 := by
      simp only [ceilDiv, dayMs, intEdiv_eq_div] at *
      omega
    simp [hD]
  · intro hlo hhi
    have hD1 : ¬ ceilDiv (ce - cs) dayMs ≤ 1 := by
      simp only [ceilDiv, dayMs, intEdiv_eq_div] at *
      omega
    have hD31 : ceilDiv (ce - cs) dayMs ≤ 31 := by
      simp only [ceilDiv, dayMs, intEdiv_eq_div] at *
      omega
    simp [hD1, hD31]
  · intro hlo
    have hD31 : ¬ ceilDiv (ce - cs) dayMs ≤ 31 := by
      simp only [ceilDiv, dayMs, intEdiv_eq_div] at *
      omega
    have hD1 : ¬ ceilDiv (ce - cs) dayMs ≤ 1 := by
      simp only [ceilDiv, dayMs, intEdiv_eq_div] at *
      omega
    simp [hD1, hD31]
  · simp [setDate_shift]
  · simp [setDate_shift]

/-- Witness for C5 (amended) at the concrete 12-hour window
[0, 43200000]: granularity hourly and comparison endpoints shifted by
one whole day. -/
theorem C5_custom_witness :
    ((43200000 : ℤ) - 0 ≤ dayMs →
      (ResolvedPeriod.mk 0 43200000 (-86400000) (-43200000) .hourly).chartType =
        .hourly) ∧
    (dayMs < (43200000 : ℤ) - 0 → (43200000 : ℤ) - 0 ≤ 31 * dayMs →
      (ResolvedPeriod.mk 0 43200000 (-86400000) (-43200000) .hourly).chartType =
        .daily) ∧
    (31 * dayMs < (43200000 : ℤ) - 0 →
      (ResolvedPeriod.mk 0 43200000 (-86400000) (-43200000) .hourly).chartType =
        .monthly) ∧
    (ResolvedPeriod.mk 0 43200000 (-86400000) (-43200000) .hourly).comparisonStart =
      0 - ceilDiv (43200000 - 0) dayMs * dayMs ∧
    (ResolvedPeriod.mk 0 43200000 (-86400000) (-43200000) .hourly).comparisonEnd =
      43200000 - ceilDiv (43200000 - 0) dayMs * dayMs :=
  C5_custom_granularity_comparison 0 0 43200000
    ⟨0, 43200000, -86400000, -43200000, .hourly⟩ (by rfl)

/-- C7: the aggregation pipeline of `getSalesForPeriodAggregated` agrees
with the spec's Sales Aggregator contract on every history and window:
inclusive-bounds filtering, raw accumulation with 2-decimal rounding
only at output, item counts summed over all line items, and a zero
average for an empty window. -/
theorem C7_aggregate_refines_spec (history : List BillingRecord) (s e : ℤ) :
    getSalesForPeriodAggregated history s e = specAggregateSales history s e := by
  unfold getSalesForPeriodAggregated specAggregateSales
  have hfilter : history.filter (inWindow s e) =
      history.filter (fun r => decide (s ≤ r.createdAt ∧ r.createdAt ≤ e)) := by
    apply List.filter_congr
    intro r _
    simp [inWindow]
  rw [hfilter]
  set recs := history.filter (fun r => decide (s ≤ r.createdAt ∧ r.createdAt ≤ e))
  have hitems : (recs.map recordItems).sum =
      ((recs.map (·.productList)).flatten.map (·.quantity)).sum := by
    induction recs with
    | nil => simp
    | cons r rs ih => simp [recordItems, ih]
  have havg : (if 0 < (recs.length : ℤ) then
        round2 ((recs.map (·.totalAmount)).sum / (recs.length : ℤ)) else 0) =
      (if (recs.length : ℤ) = 0 then 0
        else round2 ((recs.map (·.totalAmount)).sum / (recs.length : ℤ))) := by
    by_cases hc : recs.length = 0 <;> simp [hc]
  simp only [hitems, havg]

/-- C9 counterexample: at 2024-03-15 12:00 the top-selling period switch
maps the unrecognized period name "bogus" to the 1st of the current
month — the same window as `thisMonth` — instead of failing, while the
sales-analytics switch does fail with `INVALID_PERIOD`. -/
theorem C9_invalid_period_counterexample :
    topSellingStartDate 1710504000000 "bogus" = 1709251200000 ∧
    topSellingStartDate 1710504000000 "bogus" =
      topSellingStartDate 1710504000000 "thisMonth" ∧
    resolvePeriod 1710504000000 "bogus" none none = .error .invalidPeriod := by
  refine ⟨by decide, by decide, by rfl⟩

/-- C9 amended: for every unrecognized period name, `getSalesAnalytics`
fails with `INVALID_PERIOD` independently of the store's billing history
and cache (the period switch runs before any storage access), but
`getTopSellingMedicines` does not fail: its switch silently falls back
to the 1st-of-current-month (`thisMonth`) window. -/
theorem C9_invalid_period_amended (now : ℤ) (period : String)
    (cs ce : Option ℤ)
    (h : period ∉ (["today", "yesterday", "thisWeek", "thisMonth",
      "thisYear", "custom"] : List String)) :
    resolvePeriod now period cs ce = .error .invalidPeriod ∧
    (∀ (email : String) (history : List BillingRecord) (cache : Cache),
      getSalesAnalyticsModel now email period cs ce history cache =
        .error .invalidPeriod) ∧
    topSellingStartDate now period = mkDate (getFullYear now) (getMonth now) 1 := by
  simp only [List.mem_cons, List.not_mem_nil, or_false, not_or] at h
  obtain ⟨h1, h2, h3, h4, h5, h6⟩ := h
  have hres : resolvePeriod now period cs ce = .error .invalidPeriod := by
    simp [resolvePeriod, h1, h2, h3, h4, h5, h6]
  refine ⟨hres, ?_, ?_⟩
  · intro email history cache
    simp [getSalesAnalyticsModel, hres]
  · simp [topSellingStartDate, h1, h3, h5]

/-- Witness for C9 (amended) at the concrete unrecognized name "bogus"
and call time 2024-03-15 12:00. -/
theorem C9_invalid_period_witness :
    resolvePeriod 1710504000000 "bogus" none none = .error .invalidPeriod ∧
    (∀ (email : String) (history : List BillingRecord) (cache : Cache),
      getSalesAnalyticsModel 1710504000000 email "bogus" none none history cache =
        .error .invalidPeriod) ∧
    topSellingStartDate 1710504000000 "bogus" =
      mkDate (getFullYear 1710504000000) (getMonth 1710504000000) 1 :=
  C9_invalid_period_amended 1710504000000 "bogus" none none (by decide)

/-- Witness for C10 at a concrete input: stock {A:5}; a bill with lines
(A,5) then (A,1) fails with `MEDICINE_NOT_FOUND:A`, not
`INSUFFICIENT_STOCK`. -/
theorem C10_duplicate_line_sequential_witness :
    (5 = (StockEntry.mk "A" "" 5).quantity →
      processProducts ([] ++ ⟨"A", "", 5⟩ :: []) [⟨"A", 5⟩, ⟨"A", 1⟩] =
        .error (.medicineNotFound "A")) ∧
    (5 < (StockEntry.mk "A" "" 5).quantity → (StockEntry.mk "A" "" 5).quantity - 5 < 1 →
      processProducts ([] ++ ⟨"A", "", 5⟩ :: []) [⟨"A", 5⟩, ⟨"A", 1⟩] =
        .error (.insufficientStock "A")) ∧
    (5 < (StockEntry.mk "A" "" 5).quantity → 1 ≤ (StockEntry.mk "A" "" 5).quantity - 5 →
      ∃ st', processProducts ([] ++ ⟨"A", "", 5⟩ :: []) [⟨"A", 5⟩, ⟨"A", 1⟩] = .ok st') :=
  C10_duplicate_line_sequential [] [] ⟨"A", "", 5⟩ "A" 5 1
    (by simp) (by simp) rfl

lemma cacheLookup_set (c : Cache) (k : CacheKey) (v : AnalyticsResult) (t : ℤ) :
    cacheLookup k (cacheSet c k v t) = some ⟨v, t⟩ := by
  simp [cacheLookup, cacheSet, List.find?]

lemma cacheLookup_erase (k : CacheKey) (c : Cache) :
    cacheLookup k (cacheErase k c) = none := by
  induction c with
  | nil => rfl
  | cons kv c ih =>
      by_cases h : kv.1 = k
      · simpa [cacheErase, List.filter, h] using ih
      · simpa [cacheErase, cacheLookup, List.filter, List.find?, h] using ih

/-- C8: cache entries live strictly less than `CACHE_TTL` = 5 minutes.
A get strictly before expiry returns exactly the value that was set and
leaves the cache untouched, and `getSalesAnalytics` then serves the
cached value without scanning the billing history (flag `false`); a get
at or after expiry misses, lazily evicts the entry at that lookup, and
`getSalesAnalytics` recomputes from the history (flag `true`) and
re-caches the fresh value. -/
theorem C8_cache_ttl (cache : Cache) (email period : String)
    (cs ce : Option ℤ) (r : ResolvedPeriod) (v : AnalyticsResult)
    (history : List BillingRecord) (tset tget tget2 : ℤ)
    (hres : resolvePeriod tget period cs ce = .ok r)
    (hres2 : resolvePeriod tget2 period cs ce = .ok r)
    (hfresh : tget - tset < CACHE_TTL) (hstale : CACHE_TTL ≤ tget2 - tset) :
    getFromCache (cacheSet cache (email, r.startDate, r.endDate) v tset)
        (email, r.startDate, r.endDate) tget =
      (some v, cacheSet cache (email, r.startDate, r.endDate) v tset) ∧
    getFromCache (cacheSet cache (email, r.startDate, r.endDate) v tset)
        (email, r.startDate, r.endDate) tget2 =
      (none, cacheErase (email, r.startDate, r.endDate)
        (cacheSet cache (email, r.startDate, r.endDate) v tset)) ∧
    cacheLookup (email, r.startDate, r.endDate)
      (cacheErase (email, r.startDate, r.endDate)
        (cacheSet cache (email, r.startDate, r.endDate) v tset)) = none ∧
    getSalesAnalyticsModel tget email period cs ce history
        (cacheSet cache (email, r.startDate, r.endDate) v tset) =
      .ok (v, cacheSet cache (email, r.startDate, r.endDate) v tset, false) ∧
    (∃ v2, getSalesAnalyticsModel tget2 email period cs ce history
        (cacheSet cache (email, r.startDate, r.endDate) v tset) =
      .ok (v2, cacheSet (cacheErase (email, r.startDate, r.endDate)
          (cacheSet cache (email, r.startDate, r.endDate) v tset))
        (email, r.startDate, r.endDate) v2 tget2, true)) := by
  have hl := cacheLookup_set cache (email, r.startDate, r.endDate) v tset
  have g1 : getFromCache (cacheSet cache (email, r.startDate, r.endDate) v tset)
      (email, r.startDate, r.endDate) tget =
      (some v, cacheSet cache (email, r.startDate, r.endDate) v tset) := by
    simp [getFromCache, hl, hfresh]
  have hns : ¬ (tget2 - tset < CACHE_TTL) := by omega
  have g2 : getFromCache (cacheSet cache (email, r.startDate, r.endDate) v tset)
      (email, r.startDate, r.endDate) tget2 =
      (none, cacheErase (email, r.startDate, r.endDate)
        (cacheSet cache (email, r.startDate, r.endDate) v tset)) := by
    simp [getFromCache, hl, hns]
  refine ⟨g1, g2, cacheLookup_erase _ _, ?_, ?_⟩
  · simp only [getSalesAnalyticsModel, hres, g1]
  · simp only [getSalesAnalyticsModel, hres2, g2]
    exact ⟨_, rfl⟩

/-- Witness for C8 at a concrete input: a custom window [0, 43200000],
an entry set at t=0, read at t=1 (hit, no scan) and at t=300000 = TTL
(miss, evicted, rescanned). -/
theorem C8_cache_ttl_witness :
    getFromCache (cacheSet [] ("s", 0, 43200000)
        ⟨"custom", 0, 43200000, ⟨0, 0, 0, 0⟩, ⟨0, 0, 0, 0⟩, 0, true, .hourly,
          .hourly []⟩ 0) ("s", 0, 43200000) 1 =
      (some ⟨"custom", 0, 43200000, ⟨0, 0, 0, 0⟩, ⟨0, 0, 0, 0⟩, 0, true, .hourly,
          .hourly []⟩,
        cacheSet [] ("s", 0, 43200000)
          ⟨"custom", 0, 43200000, ⟨0, 0, 0, 0⟩, ⟨0, 0, 0, 0⟩, 0, true, .hourly,
            .hourly []⟩ 0) ∧
    getFromCache (cacheSet [] ("s", 0, 43200000)
        ⟨"custom", 0, 43200000, ⟨0, 0, 0, 0⟩, ⟨0, 0, 0, 0⟩, 0, true, .hourly,
          .hourly []⟩ 0) ("s", 0, 43200000) 300000 =
      (none, cacheErase ("s", 0, 43200000) (cacheSet [] ("s", 0, 43200000)
        ⟨"custom", 0, 43200000, ⟨0, 0, 0, 0⟩, ⟨0, 0, 0, 0⟩, 0, true, .hourly,
          .hourly []⟩ 0)) ∧
    cacheLookup ("s", 0, 43200000) (cacheErase ("s", 0, 43200000)
      (cacheSet [] ("s", 0, 43200000)
        ⟨"custom", 0, 43200000, ⟨0, 0, 0, 0⟩, ⟨0, 0, 0, 0⟩, 0, true, .hourly,
          .hourly []⟩ 0)) = none ∧
    getSalesAnalyticsModel 1 "s" "custom" (some 0) (some 43200000) []
        (cacheSet [] ("s", 0, 43200000)
          ⟨"custom", 0, 43200000, ⟨0, 0, 0, 0⟩, ⟨0, 0, 0, 0⟩, 0, true, .hourly,
            .hourly []⟩ 0) =
      .ok (⟨"custom", 0, 43200000, ⟨0, 0, 0, 0⟩, ⟨0, 0, 0, 0⟩, 0, true, .hourly,
          .hourly []⟩,
        cacheSet [] ("s", 0, 43200000)
          ⟨"custom", 0, 43200000, ⟨0, 0, 0, 0⟩, ⟨0, 0, 0, 0⟩, 0, true, .hourly,
            .hourly []⟩ 0, false) ∧
    (∃ v2, getSalesAnalyticsModel 300000 "s" "custom" (some 0) (some 43200000) []
        (cacheSet [] ("s", 0, 43200000)
          ⟨"custom", 0, 43200000, ⟨0, 0, 0, 0⟩, ⟨0, 0, 0, 0⟩, 0, true, .hourly,
            .hourly []⟩ 0) =
      .ok (v2, cacheSet (cacheErase ("s", 0, 43200000)
          (cacheSet [] ("s", 0, 43200000)
            ⟨"custom", 0, 43200000, ⟨0, 0, 0, 0⟩, ⟨0, 0, 0, 0⟩, 0, true, .hourly,
              .hourly []⟩ 0)) ("s", 0, 43200000) v2 300000, true)) :=
  C8_cache_ttl [] "s" "custom" (some 0) (some 43200000)
    ⟨0, 43200000, -86400000, -43200000, .hourly⟩
    ⟨"custom", 0, 43200000, ⟨0, 0, 0, 0⟩, ⟨0, 0, 0, 0⟩, 0, true, .hourly, .hourly []⟩
    [] 0 1 300000 (by rfl) (by rfl) (by decide) (by decide)

lemma intEmod_eq_mod (a b : ℤ) : a.emod b = a % b := rfl

@[simp] lemma round2_zero : round2 0 = 0 := by
  norm_num [round2, jsRound]

lemma epochDay_add_day (t : ℤ) : epochDay (t + dayMs) = epochDay t + 1 := by
  simp only [epochDay, dayMs, intEdiv_eq_div]
  omega

lemma day_span (s e : ℤ) (h : timeOfDay s ≤ timeOfDay e) :
    (e - s) / dayMs = epochDay e - epochDay s := by
  simp only [timeOfDay, epochDay, dayMs, intEdiv_eq_div, intEmod_eq_mod] at *
  omega

lemma dailyLoop_length (history : List BillingRecord) (s e : ℤ) (current : ℤ) :
    ((dailyLoop history s e current).length : ℤ) =
      if current ≤ e then (e - current) / dayMs + 1 else 0 := by
  induction current using dailyLoop.induct history s e with
  | case1 c hc ih =>
      rw [dailyLoop, dif_pos hc, if_pos hc]
      simp only [List.length_cons]
      push_cast
      rw [ih]
      by_cases h2 : c + dayMs ≤ e
      · rw [if_pos h2]
        simp only [dayMs, intEdiv_eq_div] at *
        omega
      · rw [if_neg h2]
        simp only [dayMs, intEdiv_eq_div] at *
        omega
  | case2 c hc =>
      rw [dailyLoop, dif_neg hc, if_neg hc]
      simp

lemma dailyLoop_chain (history : List BillingRecord) (s e : ℤ) (current : ℤ) :
    List.Chain' (fun a b => b.day = a.day + 1) (dailyLoop history s e current) := by
  induction current using dailyLoop.induct history s e with
  | case1 c hc ih =>
      rw [dailyLoop, dif_pos hc]
      refine List.chain'_cons'.mpr ⟨?_, ih⟩
      intro b hb
      rw [dailyLoop] at hb
      by_cases h2 : c + dayMs ≤ e
      · rw [dif_pos h2] at hb
        simp only [List.head?_cons, Option.mem_def, Option.some.injEq] at hb
        subst hb
        simp [dailyBucket, epochDay_add_day]
      · rw [dif_neg h2] at hb
        simp at hb
  | case2 c hc =>
      rw [dailyLoop, dif_neg hc]
      exact List.chain'_nil

lemma dailyLoop_mem (history : List BillingRecord) (s e current : ℤ) :
    ∀ b ∈ dailyLoop history s e current, ∃ t, b = dailyBucket history s e t := by
  induction current using dailyLoop.induct history s e with
  | case1 c hc ih =>
      intro b hb
      rw [dailyLoop, dif_pos hc] at hb
      rcases List.mem_cons.mp hb with hb | hb
      · exact ⟨c, hb⟩
      · exact ih b hb
  | case2 c hc =>
      intro b hb
      rw [dailyLoop, dif_neg hc] at hb
      simp at hb

lemma dailyBucket_zero (history : List BillingRecord) (s e t : ℤ)
    (h : history.filter (fun r =>
      inWindow s e r && decide (dateTriple r.createdAt = dateTriple t)) = []) :
    (dailyBucket history s e t).sales = 0 ∧
    (dailyBucket history s e t).transactions = 0 := by
  simp [dailyBucket, h]

lemma monthlyLoop_length (history : List BillingRecord) (s e : ℤ)
    (idx endIdx : ℤ) :
    ((monthlyLoop history s e idx endIdx).length : ℤ) =
      if idx ≤ endIdx then endIdx - idx + 1 else 0 := by
  induction idx, endIdx using monthlyLoop.induct history s e with
  | case1 idx endIdx hc ih =>
      rw [monthlyLoop, dif_pos hc, if_pos hc]
      simp only [List.length_cons]
      push_cast
      rw [ih]
      by_cases h2 : idx + 1 ≤ endIdx
      · rw [if_pos h2]
        omega
      · rw [if_neg h2]
        omega
  | case2 idx endIdx hc =>
      rw [monthlyLoop, dif_neg hc, if_neg hc]
      simp

lemma monthlyLoop_chain (history : List BillingRecord) (s e : ℤ)
    (idx endIdx : ℤ) :
    List.Chain' (fun a b => b.monthIdx = a.monthIdx + 1)
      (monthlyLoop history s e idx endIdx) := by
  induction idx, endIdx using monthlyLoop.induct history s e with
  | case1 idx endIdx hc ih =>
      rw [monthlyLoop, dif_pos hc]
      refine List.chain'_cons'.mpr ⟨?_, ih⟩
      intro b hb
      rw [monthlyLoop] at hb
      by_cases h2 : idx + 1 ≤ endIdx
      · rw [dif_pos h2] at hb
        simp only [List.head?_cons, Option.mem_def, Option.some.injEq] at hb
        subst hb
        simp [monthBucket]
      · rw [dif_neg h2] at hb
        simp at hb
  | case2 idx endIdx hc =>
      rw [monthlyLoop, dif_neg hc]
      exact List.chain'_nil

lemma monthlyLoop_mem (history : List BillingRecord) (s e idx endIdx : ℤ) :
    ∀ b ∈ monthlyLoop history s e idx endIdx,
      b = monthBucket history s e b.monthIdx := by
  induction idx, endIdx using monthlyLoop.induct history s e with
  | case1 idx endIdx hc ih =>
      intro b hb
      rw [monthlyLoop, dif_pos hc] at hb
      rcases List.mem_cons.mp hb with hb | hb
      · subst hb
        rfl
      · exact ih b hb
  | case2 idx endIdx hc =>
      intro b hb
      rw [monthlyLoop, dif_neg hc] at hb
      simp at hb

/-- C6 counterexample: for the daily window [1970-01-01 13:00,
1970-01-03 12:00] — reachable as a custom period — the fill loop emits
2 buckets although the window touches 3 calendar days, because the
cursor steps in whole days from the window's start time and
`13:00 > 12:00`. -/
theorem C6_bucket_completeness_counterexample :
    ((getDailyBreakdownAggregated [] 46800000 216000000).length : ℤ) = 2 ∧
    epochDay 216000000 - epochDay 46800000 + 1 = 3 ∧
    ((getDailyBreakdownAggregated [] 46800000 216000000).length : ℤ) ≠
      epochDay 216000000 - epochDay 46800000 + 1 := by
  have h2 : ((getDailyBreakdownAggregated [] 46800000 216000000).length : ℤ) = 2 := by
    rw [getDailyBreakdownAggregated, dailyLoop_length]
    decide
  refine ⟨h2, by decide, ?_⟩
  rw [h2]
  decide

/-- C6 (amended): the hourly series always has exactly the 24 buckets
"00:00".."23:00" in order; the daily fill loop emits one bucket per
calendar day of the window — in chronological order, zero-filled where
no record matches — provided the window's start time-of-day is not
later than its end time-of-day (true for every resolver-produced named
period, whose windows run midnight to end-of-day, but violable by a
custom window); the monthly series has one bucket per calendar month,
in order, zero-filled likewise. -/
theorem C6_bucket_completeness_amended (history : List BillingRecord)
    (s e d : ℤ) (hse : s ≤ e) (htod : timeOfDay s ≤ timeOfDay e)
    (hm : monthIdx s ≤ monthIdx e) :
    (getHourlyBreakdownAggregated history d).map HourBucket.hour =
      (List.range 24).map hourLabel ∧
    (∀ h : ℕ, h < 24 →
      history.filter (fun r =>
        inWindow (setHours d 0 0 0 0) (setHours d 23 59 59 999) r &&
          decide (getHours r.createdAt = (h : ℤ))) = [] →
      (getHourlyBreakdownAggregated history d)[h]? =
        some ⟨hourLabel h, 0, 0⟩) ∧
    ((getDailyBreakdownAggregated history s e).length : ℤ) =
      epochDay e - epochDay s + 1 ∧
    List.Chain' (fun a b => b.day = a.day + 1)
      (getDailyBreakdownAggregated history s e) ∧
    (∀ b ∈ getDailyBreakdownAggregated history s e,
      history.filter (fun r => inWindow s e r &&
        decide (dateTriple r.createdAt = civilFromDays b.day)) = [] →
      b.sales = 0 ∧ b.transactions = 0) ∧
    ((getMonthlyBreakdownAggregated history s e).length : ℤ) =
      monthIdx e - monthIdx s + 1 ∧
    List.Chain' (fun a b => b.monthIdx = a.monthIdx + 1)
      (getMonthlyBreakdownAggregated history s e) ∧
    (∀ b ∈ getMonthlyBreakdownAggregated history s e,
      history.filter (fun r => inWindow s e r &&
        decide (monthIdx r.createdAt = b.monthIdx)) = [] →
      b.sales = 0 ∧ b.transactions = 0) := by
  refine ⟨rfl, ?_, ?_, ?_, ?_, ?_, ?_, ?_⟩
  · intro h hh hfil
    simp [getHourlyBreakdownAggregated, List.getElem?_map, List.getElem?_range,
      hh, hfil]
  · rw [getDailyBreakdownAggregated, dailyLoop_length, if_pos hse,
      day_span s e htod]
  · exact dailyLoop_chain history s e s
  · intro b hb hfil
    obtain ⟨t, rfl⟩ := dailyLoop_mem history s e s b hb
    exact dailyBucket_zero history s e t hfil
  · rw [getMonthlyBreakdownAggregated, monthlyLoop_length, if_pos hm]
  · exact monthlyLoop_chain history s e (monthIdx s) (monthIdx e)
  · intro b hb hfil
    have hb2 := monthlyLoop_mem history s e (monthIdx s) (monthIdx e) b hb
    rw [hb2]
    simp [monthBucket, hfil]

/-- Witness for C6 (amended) on the concrete window [1970-01-01 00:00,
1970-01-02 23:59:59.999] with an empty history. -/
theorem C6_bucket_completeness_witness :
    (getHourlyBreakdownAggregated [] 0).map HourBucket.hour =
      (List.range 24).map hourLabel ∧
    (∀ h : ℕ, h < 24 →
      List.filter (fun r =>
        inWindow (setHours 0 0 0 0 0) (setHours 0 23 59 59 999) r &&
          decide (getHours r.createdAt = (h : ℤ))) [] = [] →
      (getHourlyBreakdownAggregated [] 0)[h]? =
        some ⟨hourLabel h, 0, 0⟩) ∧
    ((getDailyBreakdownAggregated [] 0 172799999).length : ℤ) =
      epochDay 172799999 - epochDay 0 + 1 ∧
    List.Chain' (fun a b => b.day = a.day + 1)
      (getDailyBreakdownAggregated [] 0 172799999) ∧
    (∀ b ∈ getDailyBreakdownAggregated [] 0 172799999,
      List.filter (fun r => inWindow 0 172799999 r &&
        decide (dateTriple r.createdAt = civilFromDays b.day)) [] = [] →
      b.sales = 0 ∧ b.transactions = 0) ∧
    ((getMonthlyBreakdownAggregated [] 0 172799999).length : ℤ) =
      monthIdx 172799999 - monthIdx 0 + 1 ∧
    List.Chain' (fun a b => b.monthIdx = a.monthIdx + 1)
      (getMonthlyBreakdownAggregated [] 0 172799999) ∧
    (∀ b ∈ getMonthlyBreakdownAggregated [] 0 172799999,
      List.filter (fun r => inWindow 0 172799999 r &&
        decide (monthIdx r.createdAt = b.monthIdx)) [] = [] →
      b.sales = 0 ∧ b.transactions = 0) :=
  C6_bucket_completeness_amended [] 0 172799999 0 (by decide) (by decide)
    (by decide)

end MIMS
